import Mathlib

/-
Verification of the scheduled-job subsystem of lambdalabs-cli
(src/lambdalabs_cli/scheduler.py), via a shallow embedding in Lean.

Strings are modelled as Lean String / List Char; Python string methods
(str.split with and without maxsplit, str.startswith), the regular
expressions used by the validators (including the CPython semantics of
the $ anchor, which also matches just before one trailing newline), and
shlex.quote / shlex.join are embedded directly from their documented
behaviour.  The python-crontab store is modelled as a list of entries
plus an explicit persisted copy; CronTab(user=True) reads the table once
at construction, cron.write() copies the in-memory list to the persisted
one.
-/

deriving instance DecidableEq for Except

namespace LambdalabsCli

/-! ## Python string primitives -/

/-- First occurrence split: returns the part before the first occurrence
of the separator and the part after it, or none when the separator does
not occur.  This is the building block of Python str.split. -/
def splitFirst (sep : List Char) : List Char → Option (List Char × List Char)
  | [] => none
  | c :: rest =>
    if sep.isPrefixOf (c :: rest) then some ([], (c :: rest).drop sep.length)
    else
      match splitFirst sep rest with
      | some (p, q) => some (c :: p, q)
      | none => none

/-- Python s.split(sep, 2): at most two splits, hence at most three parts. -/
def pySplit2 (sep s : List Char) : List (List Char) :=
  match splitFirst sep s with
  | none => [s]
  | some (p, q) =>
    match splitFirst sep q with
    | none => [p, q]
    | some (p2, q2) => [p, p2, q2]

/-- Python s.split(sep)[1]: the segment between the first and second
occurrence of sep (or everything after the first occurrence when it is
the only one); none when sep does not occur, which in Python raises
IndexError at the [1] subscript. -/
def pySplitIdx1 (sep s : List Char) : Option (List Char) :=
  match splitFirst sep s with
  | none => none
  | some (_, q) =>
    match splitFirst sep q with
    | none => some q
    | some (p2, _) => some p2

/-- Python s.startswith(pre). -/
def pyStartswith (pre s : String) : Bool :=
  pre.data.isPrefixOf s.data

/-- Split a list on every occurrence of a single character (used to embed
the structured regular expressions whose character classes exclude the
separator character). -/
def splitChar (ch : Char) : List Char → List (List Char)
  | [] => [[]]
  | c :: rest =>
    match splitChar ch rest with
    | [] => [[c]]
    | g :: gs => if c == ch then [] :: g :: gs else (c :: g) :: gs

/-! ## Python regular-expression semantics used by the validators

CPython re: a pattern anchored with $ matches either at the end of the
string or just before one newline at the end of the string.  So
re.match(r'^[...]+$', s) succeeds on s when all of s is in the class, or
when s is a class-only string followed by exactly one final newline. -/

/-- re.match(r'^[class]+$', s) under CPython semantics for $. -/
def reClassPlusDollar (p : Char → Bool) (s : List Char) : Bool :=
  (!s.isEmpty && s.all p) ||
    ((s.getLast? == some '\n') && (!s.dropLast.isEmpty && s.dropLast.all p))

/-- Character class [a-zA-Z0-9-] of the instance-id pattern. -/
def idChar (c : Char) : Bool := c.isAlphanum || c == '-'

/-- Character class [a-zA-Z0-9-_] of the instance/filesystem name patterns. -/
def nameChar (c : Char) : Bool := c.isAlphanum || c == '-' || c == '_'

/-- Character class [a-zA-Z0-9_] of the instance-type pattern. -/
def typeChar (c : Char) : Bool := c.isAlphanum || c == '_'

/-- Core of the region pattern ^[a-z]+-[a-z]+-[0-9]+$: because the
character classes exclude the hyphen, the pattern matches exactly the
strings with two hyphens splitting them into nonempty lowercase,
lowercase and digit segments. -/
def regionCore (s : List Char) : Bool :=
  match splitChar '-' s with
  | [a, b, c] =>
    (!a.isEmpty && a.all Char.isLower) && (!b.isEmpty && b.all Char.isLower) &&
      (!c.isEmpty && c.all Char.isDigit)
  | _ => false

/-- re.match(r'^[a-z]+-[a-z]+-[0-9]+$', s) under CPython semantics for $. -/
def reRegionDollar (s : List Char) : Bool :=
  regionCore s || ((s.getLast? == some '\n') && regionCore s.dropLast)

/-! ## shlex.quote / shlex.join -/

/-- Characters shlex treats as safe: ASCII word characters plus at-sign,
percent, plus, equals, colon, comma, dot, slash and hyphen. -/
def shlexSafeChar (c : Char) : Bool :=
  c.isAlphanum || c == '_' || c == '@' || c == '%' || c == '+' || c == '=' ||
    c == ':' || c == ',' || c == '.' || c == '/' || c == '-'

/-- shlex.quote: empty becomes two single quotes, safe strings pass
through, everything else is wrapped in single quotes with each embedded
single quote rendered as the five-character sequence quote dquote quote
dquote quote. -/
def shlexQuote (s : String) : String :=
  if s = "" then "''"
  else if s.data.all shlexSafeChar then s
  else
    "'" ++
      String.mk (s.data.flatMap fun c =>
        if c == '\'' then ['\'', '"', '\'', '"', '\''] else [c]) ++ "'"

/-- shlex.join: quote each field and join with single spaces. -/
def shlexJoin (xs : List String) : String :=
  String.intercalate " " (xs.map shlexQuote)

/-! ## Data model -/

/-- A native crontab entry as seen through python-crontab: command text,
comment text, schedule text, enabled flag. -/
structure CronJob where
  command : String
  comment : String
  schedule : String
  enabled : Bool
  deriving DecidableEq

/-- The shape of the dictionaries returned by list_jobs. -/
structure JobRec where
  id : String
  schedule : String
  command : String
  comment : String
  enabled : Bool
  deriving DecidableEq

/-- The kwargs parameter bag accepted by _create_job_command. -/
structure JobParams where
  instance_id : Option String
  instance_name : Option String
  instance_type : Option String
  region : Option String
  name : Option String
  filesystem : Option String
  deriving DecidableEq

/-- Empty parameter bag. -/
def noParams : JobParams := ⟨none, none, none, none, none, none⟩

/-- The exceptions raised by scheduler.py, one constructor per raise
site (each carries the interpolated value of its message). -/
inductive SchedError where
  | invalidInstanceId (s : String)
  | invalidInstanceName (s : String)
  | instanceNameRequired
  | invalidInstanceType (s : String)
  | invalidRegion (s : String)
  | invalidFilesystem (s : String)
  | unknownAction (s : String)
  | invalidSchedule (s : String)
  | timeFormat
  | missingParameter
  | indexError
  deriving DecidableEq

/-- self.comment_prefix = "lambdalabs-cli". -/
def comment_prefix_str : String := "lambdalabs-cli"

/-! ## Validators (scheduler.py lines 22-47) -/

/-- _validate_instance_name: nonempty, re.match(r'^[a-zA-Z0-9-_]+$', name)
and len(name) <= 64. -/
def _validate_instance_name (name : String) : Bool :=
  if name = "" then false
  else reClassPlusDollar nameChar name.data && name.data.length ≤ 64

/-- _validate_filesystem_name: same pattern and bound as instance names. -/
def _validate_filesystem_name (name : String) : Bool :=
  if name = "" then false
  else reClassPlusDollar nameChar name.data && name.data.length ≤ 64

/-- _validate_instance_type: re.match(r'^[a-zA-Z0-9_]+$', t) and len <= 32. -/
def _validate_instance_type (t : String) : Bool :=
  if t = "" then false
  else reClassPlusDollar typeChar t.data && t.data.length ≤ 32

/-- _validate_region: re.match(r'^[a-z]+-[a-z]+-[0-9]+$', r) and len <= 32. -/
def _validate_region (r : String) : Bool :=
  if r = "" then false
  else reRegionDollar r.data && r.data.length ≤ 32

/-! ## Command synthesis (scheduler.py lines 52-98) -/

/-- base_cmd = [self._get_script_path(), "-m", cli_module]; scriptPath
stands for sys.executable. -/
def baseCmd (scriptPath : String) : List String :=
  [scriptPath, "-m", "lambdalabs_cli.cli"]

/-- The ensure command assembled by the create_instance branch before
the optional filesystem extension. -/
def ensureCmd (scriptPath ty rg nm : String) : List String :=
  baseCmd scriptPath ++ ["instances", "ensure", "--type", ty, "--region", rg, "--name", nm]

/-- _create_job_command, up to the final shlex.join: builds the argument
vector [sys.executable, "-m", "lambdalabs_cli.cli", ...] for the action,
validating every user-supplied value first.  kwargs.get reads become
Option.getD ""; the truthiness test of kwargs.get('filesystem') is
some-and-nonempty. -/
def _create_job_command (scriptPath action : String) (p : JobParams) :
    Except SchedError (List String) :=
  if action = "terminate_instance" then
    if reClassPlusDollar idChar (p.instance_id.getD "").data then
      Except.ok (baseCmd scriptPath ++ ["instances", "terminate", p.instance_id.getD ""])
    else Except.error (SchedError.invalidInstanceId (p.instance_id.getD ""))
  else if action = "terminate_instance_by_name" then
    if _validate_instance_name (p.instance_name.getD "") then
      Except.ok (baseCmd scriptPath ++ ["instances", "terminate-by-name", p.instance_name.getD ""])
    else Except.error (SchedError.invalidInstanceName (p.instance_name.getD ""))
  else if action = "terminate_all" then
    Except.ok (baseCmd scriptPath ++ ["instances", "terminate-all", "--yes"])
  else if action = "create_instance" then
    if !_validate_instance_type (p.instance_type.getD "") then
      Except.error (SchedError.invalidInstanceType (p.instance_type.getD ""))
    else if !_validate_region (p.region.getD "") then
      Except.error (SchedError.invalidRegion (p.region.getD ""))
    else if p.name.getD "" = "" then Except.error SchedError.instanceNameRequired
    else if !_validate_instance_name (p.name.getD "") then
      Except.error (SchedError.invalidInstanceName (p.name.getD ""))
    else
      match p.filesystem with
      | some fs =>
        if fs = "" then
          Except.ok (ensureCmd scriptPath (p.instance_type.getD "") (p.region.getD "")
            (p.name.getD ""))
        else if _validate_filesystem_name fs then
          Except.ok (ensureCmd scriptPath (p.instance_type.getD "") (p.region.getD "")
            (p.name.getD "") ++ ["--filesystem", fs])
        else Except.error (SchedError.invalidFilesystem fs)
      | none =>
        Except.ok (ensureCmd scriptPath (p.instance_type.getD "") (p.region.getD "")
          (p.name.getD ""))
  else Except.error (SchedError.unknownAction action)

/-- The string actually returned by _create_job_command: shlex.join of
the argument vector. -/
def createJobCommandStr (scriptPath action : String) (p : JobParams) :
    Except SchedError String :=
  (_create_job_command scriptPath action p).map shlexJoin

/-! ## Job tagging (scheduler.py lines 100-103) -/

/-- _create_job_comment with the job id passed explicitly (the source
generates it as the first 8 characters of uuid4 when absent). -/
def _create_job_comment (action description jobId : String) : String :=
  comment_prefix_str ++ ": " ++ jobId ++ " - " ++ action ++ " - " ++ description

/-- The closed action enumeration of the Command Synthesizer. -/
def actionNames : List String :=
  ["terminate_instance", "terminate_instance_by_name", "terminate_all", "create_instance"]

/-- Characters produced by the id generator str(uuid.uuid4())[:8]:
lowercase hexadecimal digits. -/
def isHexLowerChar (c : Char) : Bool :=
  c.isDigit || ('a' ≤ c && c ≤ 'f')

def sepDash : List Char := [' ', '-', ' ']

def sepColon : List Char := [':', ' ']

/-- The id extraction used by list_jobs / remove_job / enable_job /
disable_job: split the comment on the first two occurrences of " - ";
with at least two parts, take part 0 and subscript its ": " split at 1
(IndexError when ": " does not occur there); otherwise the id is the
literal "unknown". -/
def extract_job_id (comment : String) : Except SchedError String :=
  match pySplit2 sepDash comment.data with
  | p0 :: _ :: _ =>
    match pySplitIdx1 sepColon p0 with
    | some i => Except.ok (String.mk i)
    | none => Except.error SchedError.indexError
  | _ => Except.ok "unknown"

/-- Modelled from the spec: untag recovers (id, action, description) from
an annotation, returning none for annotations not produced by this tool.
The repository itself only ever extracts the id (extract_job_id above);
the action and description components are read off the remaining parts
of the same split-on-first-two-" - " decomposition that the spec fixes
for the annotation format. -/
def untag (s : String) : Option (String × String × String) :=
  if pyStartswith comment_prefix_str s then
    match pySplit2 sepDash s.data with
    | [p0, p1, p2] =>
      match pySplitIdx1 sepColon p0 with
      | some i => some (String.mk i, String.mk p1, String.mk p2)
      | none => none
    | _ => none
  else none

/-! ## Registry operations over the store (scheduler.py lines 160-240)

Each operation iterates the in-memory crontab entries in order.  The
result triples carry (returned value, resulting in-memory entry list,
whether cron.write() was called). -/

/-- Ownership test used by every registry operation:
job.comment and job.comment.startswith(self.comment_prefix).  An empty
comment is falsy in Python and also fails the startswith test, so the
conjunction collapses to the startswith test. -/
def ownedB (j : CronJob) : Bool :=
  pyStartswith comment_prefix_str j.comment

/-- list_jobs: filter by ownership, extract each id (propagating the
IndexError that the subscript [1] can raise), and collect the job
dictionaries in store order. -/
def list_jobs : List CronJob → Except SchedError (List JobRec)
  | [] => Except.ok []
  | j :: rest =>
    if ownedB j then
      match extract_job_id j.comment with
      | Except.error e => Except.error e
      | Except.ok jid =>
        match list_jobs rest with
        | Except.error e => Except.error e
        | Except.ok l => Except.ok (⟨jid, j.schedule, j.command, j.comment, j.enabled⟩ :: l)
    else list_jobs rest

/-- remove_job: scan for the first owned entry whose comment splits into
at least two " - " parts and whose extracted id equals job_id; remove it,
write, return true.  Entries with fewer than two parts are skipped; a
missing ": " in part 0 raises IndexError.  No match: return false with
no mutation and no write. -/
def remove_job (jobId : String) : List CronJob → Except SchedError (Bool × List CronJob × Bool)
  | [] => Except.ok (false, [], false)
  | j :: rest =>
    if ownedB j then
      match pySplit2 sepDash j.comment.data with
      | p0 :: _ :: _ =>
        (match pySplitIdx1 sepColon p0 with
          | none => Except.error SchedError.indexError
          | some cur =>
            if String.mk cur = jobId then Except.ok (true, rest, true)
            else (remove_job jobId rest).map fun r => (r.1, j :: r.2.1, r.2.2))
      | _ => (remove_job jobId rest).map fun r => (r.1, j :: r.2.1, r.2.2)
    else (remove_job jobId rest).map fun r => (r.1, j :: r.2.1, r.2.2)

/-- enable_job: same scan as remove_job; on the first match set the
enabled flag, write, return true. -/
def enable_job (jobId : String) : List CronJob → Except SchedError (Bool × List CronJob × Bool)
  | [] => Except.ok (false, [], false)
  | j :: rest =>
    if ownedB j then
      match pySplit2 sepDash j.comment.data with
      | p0 :: _ :: _ =>
        (match pySplitIdx1 sepColon p0 with
          | none => Except.error SchedError.indexError
          | some cur =>
            if String.mk cur = jobId then
              Except.ok (true, ⟨j.command, j.comment, j.schedule, true⟩ :: rest, true)
            else (enable_job jobId rest).map fun r => (r.1, j :: r.2.1, r.2.2))
      | _ => (enable_job jobId rest).map fun r => (r.1, j :: r.2.1, r.2.2)
    else (enable_job jobId rest).map fun r => (r.1, j :: r.2.1, r.2.2)

/-- disable_job: same scan; on the first match clear the enabled flag
(job.enable(False)), write, return true. -/
def disable_job (jobId : String) : List CronJob → Except SchedError (Bool × List CronJob × Bool)
  | [] => Except.ok (false, [], false)
  | j :: rest =>
    if ownedB j then
      match pySplit2 sepDash j.comment.data with
      | p0 :: _ :: _ =>
        (match pySplitIdx1 sepColon p0 with
          | none => Except.error SchedError.indexError
          | some cur =>
            if String.mk cur = jobId then
              Except.ok (true, ⟨j.command, j.comment, j.schedule, false⟩ :: rest, true)
            else (disable_job jobId rest).map fun r => (r.1, j :: r.2.1, r.2.2))
      | _ => (disable_job jobId rest).map fun r => (r.1, j :: r.2.1, r.2.2)
    else (disable_job jobId rest).map fun r => (r.1, j :: r.2.1, r.2.2)

/-- cron.remove(job) removes that specific entry; on a value model this
is removal of the first equal element (the scan that produced the entry
guarantees no earlier equal element is a different match). -/
def removeFirst (j : CronJob) : List CronJob → List CronJob
  | [] => []
  | k :: rest => if k = j then rest else k :: removeFirst j rest

/-- clear_all_jobs: collect every owned entry, remove each collected
entry, count them, and write once when at least one was removed. -/
def clear_all_jobs (store : List CronJob) : Nat × List CronJob × Bool :=
  let jobsToRemove := store.filter ownedB
  let mem1 := jobsToRemove.foldl (fun acc j => removeFirst j acc) store
  (jobsToRemove.length, mem1, decide (0 < jobsToRemove.length))

/-! ## The crontab store and add_scheduled_job (scheduler.py lines 17-20, 105-122)

Modelled from the spec: the Schedule Store Adapter (python-crontab) keeps
an in-memory list of entries read from the persisted table once at
construction; insert appends an entry; commit (cron.write) copies the
in-memory list to persistent storage; schedule validity is validity of a
five-field cron expression, checked on the inserted entry. -/

/-- Scheduler state: the in-memory crontab entries of self.cron, and the
persisted crontab as on disk. -/
structure SchedState where
  mem : List CronJob
  persisted : List CronJob
  deriving DecidableEq

/-- LambdaLabsScheduler.__init__: CronTab(user=True) reads the persisted
table once; the in-memory list starts as a copy of it. -/
def mkScheduler (store : List CronJob) : SchedState := ⟨store, store⟩

/-- Digit-string parser (no sign, no spaces). -/
def parseNatDigits (s : List Char) : Option Nat :=
  if s.isEmpty || !s.all Char.isDigit then none
  else some (s.foldl (fun acc c => acc * 10 + (c.toNat - 48)) 0)

/-- Modelled from the spec: a cron field range atom, either star or a
number or a number-number range within the field bounds. -/
def cronRangeOk (lo hi : Nat) (a : List Char) : Bool :=
  if a == ['*'] then true
  else
    match splitChar '-' a with
    | [x] =>
      (match parseNatDigits x with
        | some n => decide (lo ≤ n) && decide (n ≤ hi)
        | none => false)
    | [x, y] =>
      (match parseNatDigits x, parseNatDigits y with
        | some n, some m =>
          decide (lo ≤ n) && decide (n ≤ hi) && decide (lo ≤ m) && decide (m ≤ hi)
        | _, _ => false)
    | _ => false

/-- Modelled from the spec: a cron field atom with an optional step. -/
def cronAtomOk (lo hi : Nat) (a : List Char) : Bool :=
  match splitChar '/' a with
  | [r] => cronRangeOk lo hi r
  | [r, st] => cronRangeOk lo hi r && (parseNatDigits st).isSome
  | _ => false

/-- Modelled from the spec: a cron field, a nonempty comma list of atoms. -/
def cronFieldOk (lo hi : Nat) (f : List Char) : Bool :=
  let atoms := splitChar ',' f
  !atoms.isEmpty && atoms.all (cronAtomOk lo hi)

/-- Modelled from the spec: job.is_valid() after job.setall(schedule) --
the schedule text must be a valid five-field cron expression (numeric
forms; named months and weekdays are not used by this tool). -/
def cronValid (schedule : String) : Bool :=
  match (splitChar ' ' schedule.data).filter (fun f => !f.isEmpty) with
  | [mi, h, dom, mon, dow] =>
    cronFieldOk 0 59 mi && cronFieldOk 0 23 h && cronFieldOk 1 31 dom &&
      cronFieldOk 1 12 mon && cronFieldOk 0 7 dow
  | _ => false

/-- add_scheduled_job with the generated uuid id passed explicitly:
synthesize the command (any validation error aborts before the store is
touched), append the new entry to the in-memory crontab (cron.new +
job.setall), then raise on an invalid schedule -- leaving the entry in
memory but unwritten -- or cron.write() and return the id. -/
def add_scheduled_job (scriptPath action schedule description jobId : String)
    (p : JobParams) (st : SchedState) : Except SchedError String × SchedState :=
  match _create_job_command scriptPath action p with
  | Except.error e => (Except.error e, st)
  | Except.ok vec =>
    let command := shlexJoin vec
    let comment := _create_job_comment action description jobId
    let mem1 := st.mem ++ [⟨command, comment, schedule, true⟩]
    if cronValid schedule then (Except.ok jobId, ⟨mem1, mem1⟩)
    else (Except.error (SchedError.invalidSchedule schedule), ⟨mem1, st.persisted⟩)

/-! ## Time-based termination (scheduler.py lines 124-155) -/

/-- datetime.datetime with second precision (microseconds play no role
in the compared values). -/
structure PyDateTime where
  year : Nat
  month : Nat
  day : Nat
  hour : Nat
  minute : Nat
  second : Nat
  deriving DecidableEq

/-- Python truthiness of an optional integer: None and 0 are falsy. -/
def pyTruthyNat : Option Nat → Bool
  | none => false
  | some n => n != 0

/-- Python truthiness of an optional string: None and "" are falsy. -/
def pyTruthyStr : Option String → Bool
  | none => false
  | some s => s != ""

/-- Greedily take at most two leading digits. -/
def takeDigits2 : List Char → List Char × List Char
  | [] => ([], [])
  | c :: rest =>
    if c.isDigit then
      match rest with
      | d :: rest2 => if d.isDigit then ([c, d], rest2) else ([c], rest)
      | [] => ([c], [])
    else ([], c :: rest)

/-- datetime.strptime(s, "%H:%M"): one or two digits for the hour
(0-23), a literal colon, one or two digits for the minute (0-59), and
nothing else. -/
def strptimeHM (s : String) : Option (Nat × Nat) :=
  match takeDigits2 s.data with
  | ([], _) => none
  | (hd, ':' :: rest2) =>
    (match takeDigits2 rest2 with
      | ([], _) => none
      | (md, []) =>
        (match parseNatDigits hd, parseNatDigits md with
          | some h, some m => if h ≤ 23 && m ≤ 59 then some (h, m) else none
          | _, _ => none)
      | (_, _ :: _) => none)
  | (_, _) => none

def isLeapYear (y : Nat) : Bool :=
  (y % 4 == 0 && y % 100 != 0) || y % 400 == 0

def daysInMonth (y m : Nat) : Nat :=
  if m == 2 then (if isLeapYear y then 29 else 28)
  else if m == 4 || m == 6 || m == 9 || m == 11 then 30
  else 31

def nextDay : Nat × Nat × Nat → Nat × Nat × Nat
  | (y, m, d) =>
    if d < daysInMonth y m then (y, m, d + 1)
    else if m < 12 then (y, m + 1, 1)
    else (y + 1, 1, 1)

def addDays : Nat × Nat × Nat → Nat → Nat × Nat × Nat
  | ymd, 0 => ymd
  | ymd, Nat.succ n => addDays (nextDay ymd) n

/-- datetime + timedelta(minutes=mins): seconds are unchanged, the
minute/hour overflow carries into the calendar date. -/
def addMinutes (dt : PyDateTime) (mins : Nat) : PyDateTime :=
  let t := dt.hour * 60 + dt.minute + mins
  let carried := addDays (dt.year, dt.month, dt.day) (t / 60 / 24)
  ⟨carried.1, carried.2.1, carried.2.2, t / 60 % 24, t % 60, dt.second⟩

/-- Comparison of datetime.time() values (hour, minute, second),
lexicographic. -/
def timeLt (a b : Nat × Nat × Nat) : Bool :=
  decide (a.1 < b.1) ||
    (a.1 == b.1 && (decide (a.2.1 < b.2.1) ||
      (a.2.1 == b.2.1 && decide (a.2.2 < b.2.2))))

/-- Lines 128-142 of scheduler.py: resolve the target datetime.
With a truthy duration: now plus the duration.  With a truthy end_time:
strptime gives 1900-01-01 at HH:MM; if that time of day is strictly
before now's time of day, replace only the day with now.day + 1 (keeping
year 1900 and month 1; ValueError when now.day + 1 exceeds the 31 days
of January, caught by the same except clause as a format error);
otherwise replace year, month and day with today's.  Neither truthy:
the missing-parameter error. -/
def resolveTargetTime (now : PyDateTime) (durationMinutes : Option Nat)
    (endTime : Option String) : Except SchedError PyDateTime :=
  if pyTruthyNat durationMinutes then
    Except.ok (addMinutes now (durationMinutes.getD 0))
  else if pyTruthyStr endTime then
    match strptimeHM (endTime.getD "") with
    | none => Except.error SchedError.timeFormat
    | some (h, m) =>
      if timeLt (h, m, 0) (now.hour, now.minute, now.second) then
        if now.day + 1 ≤ 31 then Except.ok ⟨1900, 1, now.day + 1, h, m, 0⟩
        else Except.error SchedError.timeFormat
      else Except.ok ⟨now.year, now.month, now.day, h, m, 0⟩
  else Except.error SchedError.missingParameter

def pad2 (n : Nat) : String :=
  if n < 10 then "0" ++ toString n else toString n

/-- target_time.strftime('%Y-%m-%d %H:%M'). -/
def strftimeYMDHM (t : PyDateTime) : String :=
  toString t.year ++ "-" ++ pad2 t.month ++ "-" ++ pad2 t.day ++ " " ++
    pad2 t.hour ++ ":" ++ pad2 t.minute

/-- The one-shot schedule string
f"{minute} {hour} {day} {month} *" built from the target. -/
def cronScheduleOf (t : PyDateTime) : String :=
  toString t.minute ++ " " ++ toString t.hour ++ " " ++ toString t.day ++ " " ++
    toString t.month ++ " *"

/-- add_time_based_termination: resolve the target, build the pinned
one-shot schedule, choose terminate_instance (truthy instance_id) or
terminate_all, default the description, and delegate to
add_scheduled_job. -/
def add_time_based_termination (scriptPath : String) (now : PyDateTime) (jobId : String)
    (instanceId : Option String) (durationMinutes : Option Nat) (endTime : Option String)
    (description : String) (st : SchedState) : Except SchedError String × SchedState :=
  match resolveTargetTime now durationMinutes endTime with
  | Except.error e => (Except.error e, st)
  | Except.ok target =>
    let schedule := cronScheduleOf target
    if pyTruthyStr instanceId then
      let iid := instanceId.getD ""
      let desc :=
        if description = "" then "Terminate instance " ++ iid ++ " at " ++ strftimeYMDHM target
        else description
      add_scheduled_job scriptPath "terminate_instance" schedule desc jobId
        ⟨some iid, none, none, none, none, none⟩ st
    else
      let desc :=
        if description = "" then "Terminate all instances at " ++ strftimeYMDHM target
        else description
      add_scheduled_job scriptPath "terminate_all" schedule desc jobId noParams st

/-! ## Operation wrappers over the scheduler state

Every registry operation iterates self.cron, i.e. the in-memory entry
list read at construction; none re-reads the persisted table. -/

def list_jobs_op (st : SchedState) : Except SchedError (List JobRec) :=
  list_jobs st.mem

def remove_job_op (jobId : String) (st : SchedState) :
    Except SchedError (Bool × List CronJob × Bool) :=
  remove_job jobId st.mem

def enable_job_op (jobId : String) (st : SchedState) :
    Except SchedError (Bool × List CronJob × Bool) :=
  enable_job jobId st.mem

def disable_job_op (jobId : String) (st : SchedState) :
    Except SchedError (Bool × List CronJob × Bool) :=
  disable_job jobId st.mem

def clear_all_jobs_op (st : SchedState) : Nat × List CronJob × Bool :=
  clear_all_jobs st.mem

/-- Modelled from the spec: the enumeration contract of the Schedule
Store Adapter re-reads the current store state on every call, so a
listing that follows the spec is list_jobs applied to the store as it
currently is on disk. -/
def list_jobs_fresh (current : List CronJob) : Except SchedError (List JobRec) :=
  list_jobs current

/-! ## Lemmas about the split primitives -/

theorem strData_append (a b : String) : (a ++ b).data = a.data ++ b.data := rfl

theorem strMk_data (s : String) : String.mk s.data = s := rfl

theorem isPrefixOf_append_self (l z : List Char) : l.isPrefixOf (l ++ z) = true := by
  induction l with
  | nil => simp [List.isPrefixOf]
  | cons c cs ih => simp [List.isPrefixOf, ih]

/-- Stepping a split past a character that cannot begin an occurrence of
the separator. -/
theorem splitFirst_cons_ne (h : Char) (t : List Char) (c : Char) (s : List Char)
    (hc : c ≠ h) :
    splitFirst (h :: t) (c :: s) =
      Option.map (fun pq => (c :: pq.1, pq.2)) (splitFirst (h :: t) s) := by
  have hpre : (h :: t).isPrefixOf (c :: s) = false := by
    simp [List.isPrefixOf]
    intro e
    exact absurd e.symm hc
  simp only [splitFirst, hpre, Bool.false_eq_true, if_false]
  cases e : splitFirst (h :: t) s with
  | none => simp
  | some pq => cases pq with | mk p q => simp

/-- Stepping a split past a whole block none of whose characters can
begin an occurrence of the separator. -/
theorem splitFirst_append_no_start (h : Char) (t cs z : List Char)
    (hcs : ∀ c ∈ cs, c ≠ h) :
    splitFirst (h :: t) (cs ++ z) =
      Option.map (fun pq => (cs ++ pq.1, pq.2)) (splitFirst (h :: t) z) := by
  induction cs with
  | nil =>
    cases e : splitFirst (h :: t) z with
    | none => simp [e]
    | some pq => cases pq with | mk p q => simp [e]
  | cons c cs' ih =>
    rw [List.cons_append, splitFirst_cons_ne h t c (cs' ++ z) (hcs c (by simp))]
    rw [ih (fun d hd => hcs d (by simp [hd]))]
    cases e : splitFirst (h :: t) z with
    | none => simp [e]
    | some pq => cases pq with | mk p q => simp [e]

/-- The split finds the separator when it is the immediate prefix. -/
theorem splitFirst_self_append (h : Char) (t z : List Char) :
    splitFirst (h :: t) ((h :: t) ++ z) = some ([], z) := by
  have hpre : (h :: t).isPrefixOf (h :: (t ++ z)) = true := isPrefixOf_append_self (h :: t) z
  have hdrop : (h :: (t ++ z)).drop (h :: t).length = z := List.drop_left (h :: t) z
  simp only [List.cons_append] at hpre ⊢
  simp only [splitFirst, hpre, if_true, hdrop]

/-- No occurrence at all in a block none of whose characters can begin
one. -/
theorem splitFirst_none_of_no_start (h : Char) (t cs : List Char)
    (hcs : ∀ c ∈ cs, c ≠ h) :
    splitFirst (h :: t) cs = none := by
  have := splitFirst_append_no_start h t cs [] hcs
  simpa using this

/-- Stepping a split past one character when the separator is not a
prefix there. -/
theorem splitFirst_cons_not_prefix (sep : List Char) (c : Char) (s : List Char)
    (h : sep.isPrefixOf (c :: s) = false) :
    splitFirst sep (c :: s) = Option.map (fun pq => (c :: pq.1, pq.2)) (splitFirst sep s) := by
  simp only [splitFirst, h, Bool.false_eq_true, if_false]
  cases e : splitFirst sep s with
  | none => simp
  | some pq => cases pq with | mk p q => simp

/-! ## Decomposing the annotation produced by _create_job_comment -/

theorem hexChar_ne_space {c : Char} (h : isHexLowerChar c = true) : c ≠ ' ' := by
  intro e; rw [e] at h; exact absurd h (by decide)

theorem hexChar_ne_dash {c : Char} (h : isHexLowerChar c = true) : c ≠ '-' := by
  intro e; rw [e] at h; exact absurd h (by decide)

theorem hexChar_ne_colon {c : Char} (h : isHexLowerChar c = true) : c ≠ ':' := by
  intro e; rw [e] at h; exact absurd h (by decide)

theorem dashData : (" - " : String).data = sepDash := rfl

theorem colonData : (": " : String).data = sepColon := rfl

theorem front_colon_space (X : List Char) :
    ("lambdalabs-cli" : String).data ++ (sepColon ++ X) =
      ("lambdalabs-cli:" : String).data ++ ([' '] ++ X) := by
  rw [← List.append_assoc, ← List.append_assoc]
  have e : ("lambdalabs-cli" : String).data ++ sepColon =
      ("lambdalabs-cli:" : String).data ++ [' '] := by decide
  rw [e]

/-- Splitting a hex id followed by the separator and a tail. -/
theorem splitFirst_hexid (idc z : List Char)
    (hhex : ∀ c ∈ idc, isHexLowerChar c = true) :
    splitFirst sepDash (idc ++ (sepDash ++ z)) = some (idc, z) := by
  have a1 : splitFirst sepDash (idc ++ (sepDash ++ z)) =
      Option.map (fun pq => (idc ++ pq.1, pq.2)) (splitFirst sepDash (sepDash ++ z)) :=
    splitFirst_append_no_start ' ' ['-', ' '] idc _
      (fun c hc => hexChar_ne_space (hhex c hc))
  have a2 : splitFirst sepDash (sepDash ++ z) = some ([], z) :=
    splitFirst_self_append ' ' ['-', ' '] z
  rw [a1, a2]; simp

/-- Splitting a spaceless action name followed by the separator and a
tail. -/
theorem splitFirst_action (ac z : List Char) (hac : ∀ c ∈ ac, c ≠ ' ') :
    splitFirst sepDash (ac ++ (sepDash ++ z)) = some (ac, z) := by
  have a1 : splitFirst sepDash (ac ++ (sepDash ++ z)) =
      Option.map (fun pq => (ac ++ pq.1, pq.2)) (splitFirst sepDash (sepDash ++ z)) :=
    splitFirst_append_no_start ' ' ['-', ' '] ac _ hac
  have a2 : splitFirst sepDash (sepDash ++ z) = some ([], z) :=
    splitFirst_self_append ' ' ['-', ' '] z
  rw [a1, a2]; simp

/-- The first " - " occurrence in a full annotation is the one after the
id: the prefix-and-id block contains a space only right before the id,
and the id starts with a hex character, not a hyphen. -/
theorem splitFirst_annotation (idc z : List Char) (hid : idc ≠ [])
    (hhex : ∀ c ∈ idc, isHexLowerChar c = true) :
    splitFirst sepDash
        (("lambdalabs-cli" : String).data ++ (sepColon ++ (idc ++ (sepDash ++ z)))) =
      some (("lambdalabs-cli" : String).data ++ (sepColon ++ idc), z) := by
  obtain ⟨c0, idc', rfl⟩ := List.exists_cons_of_ne_nil hid
  have hpre : sepDash.isPrefixOf (' ' :: ((c0 :: idc') ++ (sepDash ++ z))) = false := by
    have h1 : ('-' == c0) = false :=
      beq_eq_false_iff_ne.mpr fun e => hexChar_ne_dash (hhex c0 (by simp)) e.symm
    simp [sepDash, List.isPrefixOf, h1]
  have hmid : splitFirst sepDash ([' '] ++ ((c0 :: idc') ++ (sepDash ++ z))) =
      some ([' '] ++ (c0 :: idc'), z) := by
    have e0 : ([' '] ++ ((c0 :: idc') ++ (sepDash ++ z))) =
        ' ' :: ((c0 :: idc') ++ (sepDash ++ z)) := rfl
    rw [e0, splitFirst_cons_not_prefix sepDash ' ' _ hpre,
      splitFirst_hexid (c0 :: idc') z hhex]
    rfl
  have h1 : splitFirst sepDash
      (("lambdalabs-cli:" : String).data ++ ([' '] ++ ((c0 :: idc') ++ (sepDash ++ z)))) =
      Option.map (fun pq => (("lambdalabs-cli:" : String).data ++ pq.1, pq.2))
        (splitFirst sepDash ([' '] ++ ((c0 :: idc') ++ (sepDash ++ z)))) :=
    splitFirst_append_no_start ' ' ['-', ' '] _ _ (by decide)
  rw [front_colon_space, h1, hmid, front_colon_space]
  rfl

/-- pySplit2 on a full annotation recovers the three parts. -/
theorem pySplit2_annotation (idc ac dc : List Char) (hid : idc ≠ [])
    (hhex : ∀ c ∈ idc, isHexLowerChar c = true) (hac : ∀ c ∈ ac, c ≠ ' ') :
    pySplit2 sepDash
        (("lambdalabs-cli" : String).data ++
          (sepColon ++ (idc ++ (sepDash ++ (ac ++ (sepDash ++ dc)))))) =
      [("lambdalabs-cli" : String).data ++ (sepColon ++ idc), ac, dc] := by
  have h1 := splitFirst_annotation idc (ac ++ (sepDash ++ dc)) hid hhex
  have h2 := splitFirst_action ac dc hac
  simp only [pySplit2, h1, h2]

/-- Evaluation rule for pySplitIdx1 with exactly one occurrence. -/
theorem pySplitIdx1_of_eq (sep s p q : List Char)
    (h1 : splitFirst sep s = some (p, q)) (h2 : splitFirst sep q = none) :
    pySplitIdx1 sep s = some q := by
  unfold pySplitIdx1
  rw [h1]
  show (match splitFirst sep q with
    | none => some q
    | some (p2, _) => some p2) = some q
  rw [h2]

/-- The [1] subscript of the ": " split of the prefix-and-id part is the
id. -/
theorem pySplitIdx1_annotation (idc : List Char)
    (hhex : ∀ c ∈ idc, isHexLowerChar c = true) :
    pySplitIdx1 sepColon (("lambdalabs-cli" : String).data ++ (sepColon ++ idc)) =
      some idc := by
  have b1 : splitFirst sepColon (("lambdalabs-cli" : String).data ++ (sepColon ++ idc)) =
      Option.map (fun pq => (("lambdalabs-cli" : String).data ++ pq.1, pq.2))
        (splitFirst sepColon (sepColon ++ idc)) :=
    splitFirst_append_no_start ':' [' '] _ _ (by decide)
  have b2 : splitFirst sepColon (sepColon ++ idc) = some ([], idc) :=
    splitFirst_self_append ':' [' '] idc
  have b3 : splitFirst sepColon idc = none :=
    splitFirst_none_of_no_start ':' [' '] idc
      (fun c hc => hexChar_ne_colon (hhex c hc))
  have b4 : splitFirst sepColon (("lambdalabs-cli" : String).data ++ (sepColon ++ idc)) =
      some (("lambdalabs-cli" : String).data ++ [], idc) := by rw [b1, b2]; rfl
  exact pySplitIdx1_of_eq sepColon _ _ idc b4 b3

/-! ## Claim theorems -/

/-- Claim C1: the claim requires every parameter value containing a
shell metacharacter -- the newline included -- to fail validation before
command assembly.  The code evaluated at the failing input: an
instance id with one trailing newline passes the validation (CPython's
$ anchor also matches just before a final newline), and the newline is
embedded in the synthesized command. -/
theorem C1_newline_passes_validation :
    _create_job_command "/usr/bin/python3" "terminate_instance"
        ⟨some "i-123\n", none, none, none, none, none⟩ =
      Except.ok ["/usr/bin/python3", "-m", "lambdalabs_cli.cli",
        "instances", "terminate", "i-123\n"] ∧
      '\n' ∈ ("i-123\n" : String).data ∧
      createJobCommandStr "/usr/bin/python3" "terminate_instance"
          ⟨some "i-123\n", none, none, none, none, none⟩ =
        Except.ok "/usr/bin/python3 -m lambdalabs_cli.cli instances terminate 'i-123\n'" :=
  ⟨by decide, by decide, by decide⟩

/-- Claim C2: for every action of the closed enumeration, every
description (even one containing " - "), and every id of the shape the
generator produces (8 lowercase hex characters), parsing the annotation
produced by _create_job_comment with the split-on-first-two-" - "
decomposition recovers the id, the action and the verbatim description;
in particular the id extraction actually performed by list_jobs recovers
the id. -/
theorem C2_tag_roundtrip (jid ac dc : String)
    (hlen : jid.data.length = 8)
    (hhex : ∀ c ∈ jid.data, isHexLowerChar c = true)
    (hac : ac ∈ actionNames) :
    untag (_create_job_comment ac dc jid) = some (jid, ac, dc) ∧
      extract_job_id (_create_job_comment ac dc jid) = Except.ok jid := by
  have hid : jid.data ≠ [] := by
    intro e; rw [e] at hlen; exact absurd hlen (by decide)
  have hacs : ∀ c ∈ ac.data, c ≠ ' ' := by
    have h4 : ac = "terminate_instance" ∨ ac = "terminate_instance_by_name" ∨
        ac = "terminate_all" ∨ ac = "create_instance" := by
      simpa [actionNames] using hac
    rcases h4 with rfl | rfl | rfl | rfl <;> decide
  have hdata : (_create_job_comment ac dc jid).data =
      ("lambdalabs-cli" : String).data ++
        (sepColon ++ (jid.data ++ (sepDash ++ (ac.data ++ (sepDash ++ dc.data))))) := by
    simp only [_create_job_comment, comment_prefix_str, strData_append, colonData,
      dashData, List.append_assoc, sepColon, sepDash]
  have hsplit := pySplit2_annotation jid.data ac.data dc.data hid hhex hacs
  have hidx := pySplitIdx1_annotation jid.data hhex
  have hsw : pyStartswith comment_prefix_str (_create_job_comment ac dc jid) = true := by
    simp only [pyStartswith, comment_prefix_str]
    rw [hdata]
    exact isPrefixOf_append_self _ _
  constructor
  · simp only [untag, hsw, if_true, hdata, hsplit, hidx, strMk_data]
  · simp only [extract_job_id, hdata, hsplit, hidx, strMk_data]

/-- Witness for C2 at a concrete id, action and a description containing
the separator. -/
theorem C2_tag_roundtrip_witness :
    (("abcd1234" : String).data.length = 8 ∧
        (∀ c ∈ ("abcd1234" : String).data, isHexLowerChar c = true) ∧
        "terminate_all" ∈ actionNames) ∧
      (untag (_create_job_comment "terminate_all" "x - y" "abcd1234") =
          some ("abcd1234", "terminate_all", "x - y") ∧
        extract_job_id (_create_job_comment "terminate_all" "x - y" "abcd1234") =
          Except.ok "abcd1234") :=
  ⟨⟨by decide, by decide, by decide⟩,
    C2_tag_roundtrip "abcd1234" "terminate_all" "x - y" (by decide) (by decide) (by decide)⟩

/-- Claim C3: the claim requires the parser to return null (not throw)
for annotations not produced by this tool, and such entries not to be
treated as owned.  The code evaluated at the failing inputs: a foreign
comment that starts with the ownership prefix but has no ": " in its
first " - " segment makes list_jobs raise IndexError, and a foreign
comment with a similar-looking prefix is treated as owned and listed. -/
theorem C3_foreign_annotation_raises :
    list_jobs [⟨"cmd", "lambdalabs-cli x - y - z", "* * * * *", true⟩] =
      Except.error SchedError.indexError ∧
      ownedB ⟨"cmd", "lambdalabs-cli x - y - z", "* * * * *", true⟩ = true ∧
      list_jobs [⟨"cmd2", "lambdalabs-cli-v2: abc - x - y", "* * * * *", true⟩] =
        Except.ok [⟨"abc", "* * * * *", "cmd2", "lambdalabs-cli-v2: abc - x - y", true⟩] :=
  ⟨by decide, by decide, by decide⟩

/-! ## Ownership isolation -/

/-- The record list_jobs builds for an entry (the error fallback is
unreachable for entries whose id extraction succeeds). -/
def listedRecOf (j : CronJob) : JobRec :=
  ⟨(match extract_job_id j.comment with
    | Except.ok i => i
    | Except.error _ => "unknown"), j.schedule, j.command, j.comment, j.enabled⟩

/-- Whether an Except result is a success. -/
def exceptOk {α : Type} : Except SchedError α → Bool
  | Except.ok _ => true
  | Except.error _ => false

/-- list_jobs returns exactly the owned entries, in store order, when
every owned entry's id extraction succeeds. -/
theorem list_jobs_eq_filter : ∀ store : List CronJob,
    (∀ j ∈ store, ownedB j = true → exceptOk (extract_job_id j.comment) = true) →
    list_jobs store = Except.ok ((store.filter ownedB).map listedRecOf)
  | [], _ => rfl
  | j :: rest, H => by
    have hrest : ∀ k ∈ rest, ownedB k = true → exceptOk (extract_job_id k.comment) = true :=
      fun k hk => H k (List.mem_cons_of_mem j hk)
    have ihr := list_jobs_eq_filter rest hrest
    cases hov : ownedB j with
    | false => simp [list_jobs, hov, ihr, List.filter_cons]
    | true =>
      have hok := H j (List.mem_cons_self j rest) hov
      cases e : extract_job_id j.comment with
      | error err => rw [e] at hok; exact absurd hok (by simp [exceptOk])
      | ok i => simp [list_jobs, hov, e, ihr, List.filter_cons, listedRecOf]

/-- Folding removeFirst over elements all different from the head keeps
the head in place. -/
theorem foldl_removeFirst_cons (js : List CronJob) (x : CronJob) :
    ∀ acc, (∀ j ∈ js, j ≠ x) →
      js.foldl (fun a j => removeFirst j a) (x :: acc) =
        x :: js.foldl (fun a j => removeFirst j a) acc := by
  induction js with
  | nil => intro acc _; rfl
  | cons j1 js' ih =>
    intro acc hne
    have hx : x ≠ j1 := fun e => hne j1 (List.mem_cons_self _ _) e.symm
    have h1 : removeFirst j1 (x :: acc) = x :: removeFirst j1 acc := by
      simp [removeFirst, hx]
    simp only [List.foldl_cons, h1]
    exact ih (removeFirst j1 acc) (fun j hj => hne j (List.mem_cons_of_mem j1 hj))

/-- Removing every owned entry (collected first, then removed one by
one, as clear_all_jobs does) is filtering the store down to the foreign
entries, preserving their relative order. -/
theorem clear_all_filter : ∀ store : List CronJob,
    (store.filter ownedB).foldl (fun a j => removeFirst j a) store =
      store.filter (fun j => !(ownedB j))
  | [] => rfl
  | x :: rest => by
    have ih := clear_all_filter rest
    cases hov : ownedB x with
    | true =>
      have e1 : (x :: rest).filter ownedB = x :: rest.filter ownedB := by
        simp [List.filter_cons, hov]
      have e2 : removeFirst x (x :: rest) = rest := by simp [removeFirst]
      rw [e1]
      simp only [List.foldl_cons, e2, ih]
      simp [List.filter_cons, hov]
    | false =>
      have e1 : (x :: rest).filter ownedB = rest.filter ownedB := by
        simp [List.filter_cons, hov]
      have hne : ∀ j ∈ rest.filter ownedB, j ≠ x := by
        intro j hj e
        have hjo : ownedB j = true := List.of_mem_filter hj
        rw [e, hov] at hjo
        exact absurd hjo (by simp)
      rw [e1, foldl_removeFirst_cons (rest.filter ownedB) x rest hne, ih]
      simp [List.filter_cons, hov]

/-- Claim C4: on a store whose owned entries are well-formed (their id
extraction succeeds, as it does for every entry this tool creates),
list_jobs returns exactly the owned entries in store order, and
clear_all_jobs removes exactly the owned entries, returns their count,
writes only when the count is positive, and leaves the foreign entries
unchanged in their original relative order. -/
theorem C4_ownership_isolation (store : List CronJob)
    (H : ∀ j ∈ store, ownedB j = true → exceptOk (extract_job_id j.comment) = true) :
    list_jobs store = Except.ok ((store.filter ownedB).map listedRecOf) ∧
      clear_all_jobs store =
        ((store.filter ownedB).length, store.filter (fun j => !(ownedB j)),
          decide (0 < (store.filter ownedB).length)) := by
  refine ⟨list_jobs_eq_filter store H, ?_⟩
  show ((store.filter ownedB).length,
      (store.filter ownedB).foldl (fun a j => removeFirst j a) store,
      decide (0 < (store.filter ownedB).length)) = _
  rw [clear_all_filter]

/-- Witness for C4 on a store with one foreign entry and two owned
entries. -/
theorem C4_ownership_isolation_witness :
    (∀ j ∈ ([⟨"fc", "other-tool: job", "0 12 * * *", true⟩,
        ⟨"c1", "lambdalabs-cli: aaaa1111 - terminate_all - d1", "* * * * *", true⟩,
        ⟨"c2", "lambdalabs-cli: bbbb2222 - terminate_instance - d2", "0 9 * * *", false⟩] :
          List CronJob),
        ownedB j = true → exceptOk (extract_job_id j.comment) = true) ∧
      (list_jobs [⟨"fc", "other-tool: job", "0 12 * * *", true⟩,
          ⟨"c1", "lambdalabs-cli: aaaa1111 - terminate_all - d1", "* * * * *", true⟩,
          ⟨"c2", "lambdalabs-cli: bbbb2222 - terminate_instance - d2", "0 9 * * *", false⟩] =
        Except.ok ((([⟨"fc", "other-tool: job", "0 12 * * *", true⟩,
          ⟨"c1", "lambdalabs-cli: aaaa1111 - terminate_all - d1", "* * * * *", true⟩,
          ⟨"c2", "lambdalabs-cli: bbbb2222 - terminate_instance - d2", "0 9 * * *", false⟩] :
            List CronJob).filter ownedB).map listedRecOf) ∧
        clear_all_jobs [⟨"fc", "other-tool: job", "0 12 * * *", true⟩,
            ⟨"c1", "lambdalabs-cli: aaaa1111 - terminate_all - d1", "* * * * *", true⟩,
            ⟨"c2", "lambdalabs-cli: bbbb2222 - terminate_instance - d2", "0 9 * * *", false⟩] =
          ((([⟨"fc", "other-tool: job", "0 12 * * *", true⟩,
            ⟨"c1", "lambdalabs-cli: aaaa1111 - terminate_all - d1", "* * * * *", true⟩,
            ⟨"c2", "lambdalabs-cli: bbbb2222 - terminate_instance - d2", "0 9 * * *", false⟩] :
              List CronJob).filter ownedB).length,
            ([⟨"fc", "other-tool: job", "0 12 * * *", true⟩,
              ⟨"c1", "lambdalabs-cli: aaaa1111 - terminate_all - d1", "* * * * *", true⟩,
              ⟨"c2", "lambdalabs-cli: bbbb2222 - terminate_instance - d2", "0 9 * * *", false⟩] :
                List CronJob).filter (fun j => !(ownedB j)),
            decide (0 < (([⟨"fc", "other-tool: job", "0 12 * * *", true⟩,
              ⟨"c1", "lambdalabs-cli: aaaa1111 - terminate_all - d1", "* * * * *", true⟩,
              ⟨"c2", "lambdalabs-cli: bbbb2222 - terminate_instance - d2", "0 9 * * *", false⟩] :
                List CronJob).filter ownedB).length))) :=
  ⟨by decide, C4_ownership_isolation _ (by decide)⟩

/-! ## Time-based termination claims -/

/-- Claim C5: the claim requires the tomorrow-branch target to carry
tomorrow's actual calendar date.  The code evaluated at the spec's own
boundary input (now 2024-06-20 14:30, end_time "14:29"): the target
keeps the strptime base year 1900 and month January, only the day is
replaced, so the one-shot schedule pins January 21 rather than June 21;
the today branch and the format error behave as claimed. -/
theorem C5_tomorrow_schedule_january :
    resolveTargetTime ⟨2024, 6, 20, 14, 30, 0⟩ none (some "14:29") =
      Except.ok ⟨1900, 1, 21, 14, 29, 0⟩ ∧
      (add_time_based_termination "/usr/bin/python3" ⟨2024, 6, 20, 14, 30, 0⟩ "abcd1234"
            (some "i-1") none (some "14:29") "d" ⟨[], []⟩).2.persisted.map
          (fun j => j.schedule) = ["29 14 21 1 *"] ∧
      ("29 14 21 1 *" : String) ≠ "29 14 21 6 *" ∧
      resolveTargetTime ⟨2024, 6, 20, 14, 30, 0⟩ none (some "14:31") =
        Except.ok ⟨2024, 6, 20, 14, 31, 0⟩ ∧
      resolveTargetTime ⟨2024, 6, 20, 14, 30, 0⟩ none (some "invalid-time") =
        Except.error SchedError.timeFormat :=
  ⟨by decide, by decide, by decide, by decide, by decide⟩

/-- Counterexample to claim C6: with duration_minutes = 0 and no
end_time -- exactly one parameter given -- the code raises the
missing-parameter error; and with both parameters given the code does
not fail but silently uses the duration. -/
theorem C6_missing_parameter_counterexample :
    (add_time_based_termination "/usr/bin/python3" ⟨2024, 6, 20, 14, 30, 0⟩ "abcd1234"
        (some "i-1") (some 0) none "" ⟨[], []⟩).1 =
      Except.error SchedError.missingParameter ∧
      (some (0 : Nat)).isSome = true ∧ (none : Option String).isSome = false ∧
      (add_time_based_termination "/usr/bin/python3" ⟨2024, 6, 20, 14, 30, 0⟩ "abcd1234"
          (some "i-1") (some 60) (some "18:00") "" ⟨[], []⟩).1 = Except.ok "abcd1234" :=
  ⟨by decide, rfl, rfl, by decide⟩

/-- The resolver produces the missing-parameter error exactly when both
optional inputs are Python-falsy. -/
theorem resolveTargetTime_missing_iff (now : PyDateTime) (dm : Option Nat)
    (et : Option String) :
    resolveTargetTime now dm et = Except.error SchedError.missingParameter ↔
      (pyTruthyNat dm = false ∧ pyTruthyStr et = false) := by
  unfold resolveTargetTime
  cases h1 : pyTruthyNat dm with
  | true => simp [h1]
  | false =>
    cases h2 : pyTruthyStr et with
    | false => simp [h1, h2]
    | true =>
      simp only [h1, h2, Bool.false_eq_true, if_false, if_true]
      cases h3 : strptimeHM (et.getD "") with
      | none => simp [h2]
      | some hm =>
        cases hm with
        | mk h m =>
          simp only [h2]
          split
          · split <;> simp
          · simp

/-- Command synthesis never produces the missing-parameter error. -/
theorem createJobCommand_not_missing (sp a : String) (p : JobParams) :
    _create_job_command sp a p ≠ Except.error SchedError.missingParameter := by
  intro h
  unfold _create_job_command at h
  repeat' split at h
  all_goals simp at h

/-- add_scheduled_job never produces the missing-parameter error. -/
theorem add_scheduled_job_not_missing (sp a sch d jid : String) (p : JobParams)
    (st : SchedState) :
    (add_scheduled_job sp a sch d jid p st).1 ≠ Except.error SchedError.missingParameter := by
  intro h
  unfold add_scheduled_job at h
  cases e : _create_job_command sp a p with
  | error err =>
    rw [e] at h
    simp at h
    exact createJobCommand_not_missing sp a p (by rw [e, h])
  | ok vec =>
    rw [e] at h
    repeat' (first | split at h | simp only [] at h)
    all_goals simp_all

/-- Claim C6 as amended: add_time_based_termination raises the
missing-parameter error exactly when duration_minutes is absent or zero
and end_time is absent or empty (Python truthiness); in particular
duration 0 is treated as absent, and when both parameters are given no
missing-parameter error is raised (the duration takes precedence). -/
theorem C6_missing_parameter_amended (sp : String) (now : PyDateTime) (jid : String)
    (iid : Option String) (dm : Option Nat) (et : Option String) (d : String)
    (st : SchedState) :
    (add_time_based_termination sp now jid iid dm et d st).1 =
        Except.error SchedError.missingParameter ↔
      (pyTruthyNat dm = false ∧ pyTruthyStr et = false) := by
  unfold add_time_based_termination
  cases e : resolveTargetTime now dm et with
  | error err =>
    simp only []
    constructor
    · intro h
      simp at h
      exact (resolveTargetTime_missing_iff now dm et).mp (by rw [e, h])
    · intro hrhs
      have h2 := (resolveTargetTime_missing_iff now dm et).mpr hrhs
      rw [e] at h2
      injection h2 with h3
      simp [h3]
  | ok target =>
    have hne : ¬(pyTruthyNat dm = false ∧ pyTruthyStr et = false) := by
      intro hrhs
      have h2 := (resolveTargetTime_missing_iff now dm et).mpr hrhs
      rw [e] at h2
      cases h2
    simp only []
    constructor
    · intro h
      exfalso
      cases hts : pyTruthyStr iid with
      | true =>
        rw [hts] at h
        simp at h
        exact add_scheduled_job_not_missing _ _ _ _ _ _ _ h
      | false =>
        rw [hts] at h
        simp at h
        exact add_scheduled_job_not_missing _ _ _ _ _ _ _ h
    · intro hrhs
      exact absurd hrhs hne

/-- Counterexample to claim C7: an add that fails on an invalid schedule
leaves the persisted store untouched at that call, but the
partially-created entry stays in the in-memory crontab, and the next
successful add on the same scheduler instance persists it alongside the
new entry. -/
theorem C7_partial_entry_persisted :
    (add_scheduled_job "/usr/bin/python3" "terminate_all" "bad" "d1" "aaaa1111" noParams
        ⟨[], []⟩).1 = Except.error (SchedError.invalidSchedule "bad") ∧
      (add_scheduled_job "/usr/bin/python3" "terminate_all" "bad" "d1" "aaaa1111" noParams
          ⟨[], []⟩).2.persisted = [] ∧
      (add_scheduled_job "/usr/bin/python3" "terminate_all" "* * * * *" "d2" "bbbb2222"
          noParams
          (add_scheduled_job "/usr/bin/python3" "terminate_all" "bad" "d1" "aaaa1111"
            noParams ⟨[], []⟩).2).1 = Except.ok "bbbb2222" ∧
      (add_scheduled_job "/usr/bin/python3" "terminate_all" "* * * * *" "d2" "bbbb2222"
          noParams
          (add_scheduled_job "/usr/bin/python3" "terminate_all" "bad" "d1" "aaaa1111"
            noParams ⟨[], []⟩).2).2.persisted.map (fun j => j.comment) =
        ["lambdalabs-cli: aaaa1111 - terminate_all - d1",
          "lambdalabs-cli: bbbb2222 - terminate_all - d2"] :=
  ⟨by decide, by decide, by decide, by decide⟩

/-- Claim C7 as amended: add either fully persists (command, annotation
and commit) and returns the id, or fails leaving the persisted store
untouched at that call; on a validation failure the in-memory crontab is
also untouched, but on an invalid-schedule failure the partially-created
entry remains in the in-memory crontab of the instance (whence a later
committing operation persists it). -/
theorem C7_add_atomicity_amended (sp a sch d jid : String) (p : JobParams)
    (st : SchedState) :
    match add_scheduled_job sp a sch d jid p st with
    | (Except.error _, st1) =>
      st1.persisted = st.persisted ∧
        (st1.mem = st.mem ∨ ∃ job, st1.mem = st.mem ++ [job])
    | (Except.ok r, st1) =>
      r = jid ∧ st1.persisted = st1.mem ∧ ∃ job, st1.mem = st.mem ++ [job] := by
  unfold add_scheduled_job
  cases e : _create_job_command sp a p with
  | error err => simp
  | ok vec =>
    cases hv : cronValid sch with
    | true => simp [hv]
    | false => simp [hv]

/-- Counterexample to claim C9: a scheduler constructed while the store
was empty does not observe an owned entry written to the underlying
store afterwards -- its listing differs from the fresh listing of the
current store state that the claim requires. -/
theorem C9_stale_snapshot :
    list_jobs_op (mkScheduler []) = Except.ok [] ∧
      list_jobs_fresh [⟨"c", "lambdalabs-cli: aaaa1111 - terminate_all - d",
          "* * * * *", true⟩] =
        Except.ok [⟨"aaaa1111", "* * * * *", "c",
          "lambdalabs-cli: aaaa1111 - terminate_all - d", true⟩] ∧
      list_jobs_op ⟨(mkScheduler []).mem,
          [⟨"c", "lambdalabs-cli: aaaa1111 - terminate_all - d", "* * * * *", true⟩]⟩ ≠
        list_jobs_fresh [⟨"c", "lambdalabs-cli: aaaa1111 - terminate_all - d",
          "* * * * *", true⟩] :=
  ⟨rfl, by decide, by decide⟩

/-- Claim C9 as amended: every registry operation enumerates the
in-memory snapshot read once at construction (CronTab(user=True) in
__init__); its result is independent of the current state of the
underlying store, and mutations made after construction are only
observed by constructing a new scheduler. -/
theorem C9_snapshot_semantics_amended (snapshot cur cur' : List CronJob) (jid : String) :
    list_jobs_op ⟨snapshot, cur⟩ = list_jobs_op ⟨snapshot, cur'⟩ ∧
      list_jobs_op ⟨snapshot, cur⟩ = list_jobs snapshot ∧
      remove_job_op jid ⟨snapshot, cur⟩ = remove_job_op jid ⟨snapshot, cur'⟩ ∧
      enable_job_op jid ⟨snapshot, cur⟩ = enable_job_op jid ⟨snapshot, cur'⟩ ∧
      disable_job_op jid ⟨snapshot, cur⟩ = disable_job_op jid ⟨snapshot, cur'⟩ ∧
      clear_all_jobs_op ⟨snapshot, cur⟩ = clear_all_jobs_op ⟨snapshot, cur'⟩ ∧
      list_jobs_op (mkScheduler cur) = list_jobs_fresh cur :=
  ⟨rfl, rfl, rfl, rfl, rfl, rfl, rfl⟩

/-! ## Idempotent lookup (remove / enable / disable) -/

/-- Whether an entry is the kind remove_job / enable_job / disable_job
match for a given id: owned, comment splits into at least two " - "
parts, the ": " subscript succeeds, and the extracted id equals the
argument. -/
def idMatches (jid : String) (j : CronJob) : Bool :=
  ownedB j &&
    match pySplit2 sepDash j.comment.data with
    | p0 :: _ :: _ =>
      (match pySplitIdx1 sepColon p0 with
        | some i => String.mk i == jid
        | none => false)
    | _ => false

/-- remove_job steps over a non-matching, non-raising entry. -/
theorem remove_job_skip (j : CronJob) (rest : List CronJob) (jid : String)
    (hok : ownedB j = true → exceptOk (extract_job_id j.comment) = true)
    (hm : idMatches jid j = false) :
    remove_job jid (j :: rest) =
      (remove_job jid rest).map fun r => (r.1, j :: r.2.1, r.2.2) := by
  cases hov : ownedB j with
  | false => simp [remove_job, hov]
  | true =>
    cases hsp : pySplit2 sepDash j.comment.data with
    | nil => simp [remove_job, hov, hsp]
    | cons p0 t =>
      cases t with
      | nil => simp [remove_job, hov, hsp]
      | cons b t' =>
        cases hidx : pySplitIdx1 sepColon p0 with
        | none =>
          have hex := hok hov
          simp only [extract_job_id, hsp, hidx] at hex
          exact absurd hex (by simp [exceptOk])
        | some i =>
          have hne : ¬(String.mk i = jid) := by
            intro e
            rw [idMatches, hov] at hm
            simp only [hsp, hidx, Bool.true_and] at hm
            rw [e] at hm
            simp at hm
          simp [remove_job, hov, hsp, hidx, hne]

/-- enable_job steps over a non-matching, non-raising entry. -/
theorem enable_job_skip (j : CronJob) (rest : List CronJob) (jid : String)
    (hok : ownedB j = true → exceptOk (extract_job_id j.comment) = true)
    (hm : idMatches jid j = false) :
    enable_job jid (j :: rest) =
      (enable_job jid rest).map fun r => (r.1, j :: r.2.1, r.2.2) := by
  cases hov : ownedB j with
  | false => simp [enable_job, hov]
  | true =>
    cases hsp : pySplit2 sepDash j.comment.data with
    | nil => simp [enable_job, hov, hsp]
    | cons p0 t =>
      cases t with
      | nil => simp [enable_job, hov, hsp]
      | cons b t' =>
        cases hidx : pySplitIdx1 sepColon p0 with
        | none =>
          have hex := hok hov
          simp only [extract_job_id, hsp, hidx] at hex
          exact absurd hex (by simp [exceptOk])
        | some i =>
          have hne : ¬(String.mk i = jid) := by
            intro e
            rw [idMatches, hov] at hm
            simp only [hsp, hidx, Bool.true_and] at hm
            rw [e] at hm
            simp at hm
          simp [enable_job, hov, hsp, hidx, hne]

/-- disable_job steps over a non-matching, non-raising entry. -/
theorem disable_job_skip (j : CronJob) (rest : List CronJob) (jid : String)
    (hok : ownedB j = true → exceptOk (extract_job_id j.comment) = true)
    (hm : idMatches jid j = false) :
    disable_job jid (j :: rest) =
      (disable_job jid rest).map fun r => (r.1, j :: r.2.1, r.2.2) := by
  cases hov : ownedB j with
  | false => simp [disable_job, hov]
  | true =>
    cases hsp : pySplit2 sepDash j.comment.data with
    | nil => simp [disable_job, hov, hsp]
    | cons p0 t =>
      cases t with
      | nil => simp [disable_job, hov, hsp]
      | cons b t' =>
        cases hidx : pySplitIdx1 sepColon p0 with
        | none =>
          have hex := hok hov
          simp only [extract_job_id, hsp, hidx] at hex
          exact absurd hex (by simp [exceptOk])
        | some i =>
          have hne : ¬(String.mk i = jid) := by
            intro e
            rw [idMatches, hov] at hm
            simp only [hsp, hidx, Bool.true_and] at hm
            rw [e] at hm
            simp at hm
          simp [disable_job, hov, hsp, hidx, hne]

/-- A matching entry is hit: the three operations mutate at the first
match, commit, and return true. -/
theorem lookup_hit_head (j : CronJob) (rest : List CronJob) (jid : String)
    (hm : idMatches jid j = true) :
    remove_job jid (j :: rest) = Except.ok (true, rest, true) ∧
      enable_job jid (j :: rest) =
        Except.ok (true, ⟨j.command, j.comment, j.schedule, true⟩ :: rest, true) ∧
      disable_job jid (j :: rest) =
        Except.ok (true, ⟨j.command, j.comment, j.schedule, false⟩ :: rest, true) := by
  rw [idMatches] at hm
  cases hov : ownedB j with
  | false => rw [hov] at hm; exact absurd hm (by simp)
  | true =>
    rw [hov, Bool.true_and] at hm
    cases hsp : pySplit2 sepDash j.comment.data with
    | nil => rw [hsp] at hm; exact absurd hm (by simp)
    | cons p0 t =>
      cases t with
      | nil => rw [hsp] at hm; exact absurd hm (by simp)
      | cons b t' =>
        simp only [hsp] at hm
        cases hidx : pySplitIdx1 sepColon p0 with
        | none => rw [hidx] at hm; exact absurd hm (by simp)
        | some i =>
          rw [hidx] at hm
          have he : String.mk i = jid := by simpa using hm
          refine ⟨?_, ?_, ?_⟩
          · simp [remove_job, hov, hsp, hidx, he]
          · simp [enable_job, hov, hsp, hidx, he]
          · simp [disable_job, hov, hsp, hidx, he]

/-- remove_job with no matching entry: false, no mutation, no commit. -/
theorem remove_job_no_match : ∀ (store : List CronJob) (jid : String),
    (∀ j ∈ store, ownedB j = true → exceptOk (extract_job_id j.comment) = true) →
    (∀ j ∈ store, idMatches jid j = false) →
    remove_job jid store = Except.ok (false, store, false)
  | [], _, _, _ => rfl
  | j :: rest, jid, H, Hm => by
    rw [remove_job_skip j rest jid (H j (List.mem_cons_self j rest))
        (Hm j (List.mem_cons_self j rest)),
      remove_job_no_match rest jid (fun k hk => H k (List.mem_cons_of_mem j hk))
        (fun k hk => Hm k (List.mem_cons_of_mem j hk))]
    rfl

/-- enable_job with no matching entry: false, no mutation, no commit. -/
theorem enable_job_no_match : ∀ (store : List CronJob) (jid : String),
    (∀ j ∈ store, ownedB j = true → exceptOk (extract_job_id j.comment) = true) →
    (∀ j ∈ store, idMatches jid j = false) →
    enable_job jid store = Except.ok (false, store, false)
  | [], _, _, _ => rfl
  | j :: rest, jid, H, Hm => by
    rw [enable_job_skip j rest jid (H j (List.mem_cons_self j rest))
        (Hm j (List.mem_cons_self j rest)),
      enable_job_no_match rest jid (fun k hk => H k (List.mem_cons_of_mem j hk))
        (fun k hk => Hm k (List.mem_cons_of_mem j hk))]
    rfl

/-- disable_job with no matching entry: false, no mutation, no commit. -/
theorem disable_job_no_match : ∀ (store : List CronJob) (jid : String),
    (∀ j ∈ store, ownedB j = true → exceptOk (extract_job_id j.comment) = true) →
    (∀ j ∈ store, idMatches jid j = false) →
    disable_job jid store = Except.ok (false, store, false)
  | [], _, _, _ => rfl
  | j :: rest, jid, H, Hm => by
    rw [disable_job_skip j rest jid (H j (List.mem_cons_self j rest))
        (Hm j (List.mem_cons_self j rest)),
      disable_job_no_match rest jid (fun k hk => H k (List.mem_cons_of_mem j hk))
        (fun k hk => Hm k (List.mem_cons_of_mem j hk))]
    rfl

/-- remove_job with a matching entry: removes one entry and commits. -/
theorem remove_job_hit : ∀ (store : List CronJob) (jid : String),
    (∀ j ∈ store, ownedB j = true → exceptOk (extract_job_id j.comment) = true) →
    store.any (idMatches jid) = true →
    ∃ st1, remove_job jid store = Except.ok (true, st1, true) ∧
      st1.length + 1 = store.length
  | [], jid, _, ha => by simp at ha
  | j :: rest, jid, H, ha => by
    cases hm : idMatches jid j with
    | true => exact ⟨rest, (lookup_hit_head j rest jid hm).1, rfl⟩
    | false =>
      have ha' : rest.any (idMatches jid) = true := by
        rw [List.any_cons, hm] at ha
        simpa using ha
      obtain ⟨st1, h1, h2⟩ := remove_job_hit rest jid
        (fun k hk => H k (List.mem_cons_of_mem j hk)) ha'
      refine ⟨j :: st1, ?_, ?_⟩
      · rw [remove_job_skip j rest jid (H j (List.mem_cons_self j rest)) hm, h1]
        rfl
      · simp only [List.length_cons]
        omega

/-- enable_job with a matching entry: mutates in place and commits. -/
theorem enable_job_hit : ∀ (store : List CronJob) (jid : String),
    (∀ j ∈ store, ownedB j = true → exceptOk (extract_job_id j.comment) = true) →
    store.any (idMatches jid) = true →
    ∃ st1, enable_job jid store = Except.ok (true, st1, true) ∧
      st1.length = store.length
  | [], jid, _, ha => by simp at ha
  | j :: rest, jid, H, ha => by
    cases hm : idMatches jid j with
    | true =>
      exact ⟨⟨j.command, j.comment, j.schedule, true⟩ :: rest,
        (lookup_hit_head j rest jid hm).2.1, rfl⟩
    | false =>
      have ha' : rest.any (idMatches jid) = true := by
        rw [List.any_cons, hm] at ha
        simpa using ha
      obtain ⟨st1, h1, h2⟩ := enable_job_hit rest jid
        (fun k hk => H k (List.mem_cons_of_mem j hk)) ha'
      refine ⟨j :: st1, ?_, ?_⟩
      · rw [enable_job_skip j rest jid (H j (List.mem_cons_self j rest)) hm, h1]
        rfl
      · simp [h2]

/-- disable_job with a matching entry: mutates in place and commits. -/
theorem disable_job_hit : ∀ (store : List CronJob) (jid : String),
    (∀ j ∈ store, ownedB j = true → exceptOk (extract_job_id j.comment) = true) →
    store.any (idMatches jid) = true →
    ∃ st1, disable_job jid store = Except.ok (true, st1, true) ∧
      st1.length = store.length
  | [], jid, _, ha => by simp at ha
  | j :: rest, jid, H, ha => by
    cases hm : idMatches jid j with
    | true =>
      exact ⟨⟨j.command, j.comment, j.schedule, false⟩ :: rest,
        (lookup_hit_head j rest jid hm).2.2, rfl⟩
    | false =>
      have ha' : rest.any (idMatches jid) = true := by
        rw [List.any_cons, hm] at ha
        simpa using ha
      obtain ⟨st1, h1, h2⟩ := disable_job_hit rest jid
        (fun k hk => H k (List.mem_cons_of_mem j hk)) ha'
      refine ⟨j :: st1, ?_, ?_⟩
      · rw [disable_job_skip j rest jid (H j (List.mem_cons_self j rest)) hm, h1]
        rfl
      · simp [h2]

/-- Counterexample to claim C8: on a store holding a foreign entry whose
comment starts with the ownership prefix but has no ": " in its first
" - " segment, there is no owned entry with an embedded id at all --
and remove/enable/disable raise IndexError instead of returning
false. -/
theorem C8_malformed_entry_raises :
    ([⟨"c", "lambdalabs-cli x - y - z", "* * * * *", true⟩] :
        List CronJob).any (idMatches "abcd1234") = false ∧
      remove_job "abcd1234" [⟨"c", "lambdalabs-cli x - y - z", "* * * * *", true⟩] =
        Except.error SchedError.indexError ∧
      enable_job "abcd1234" [⟨"c", "lambdalabs-cli x - y - z", "* * * * *", true⟩] =
        Except.error SchedError.indexError ∧
      disable_job "abcd1234" [⟨"c", "lambdalabs-cli x - y - z", "* * * * *", true⟩] =
        Except.error SchedError.indexError :=
  ⟨by decide, by decide, by decide, by decide⟩

/-- Claim C8 as amended: provided every prefix-bearing entry of the
store parses (as every entry this tool creates does), remove_job,
enable_job and disable_job return false with no store mutation and no
commit when no entry matches the id, and when a matching entry exists
they apply the mutation plus one commit and return true. -/
theorem C8_idempotent_lookup_amended (store : List CronJob) (jid : String)
    (H : ∀ j ∈ store, ownedB j = true → exceptOk (extract_job_id j.comment) = true) :
    (store.any (idMatches jid) = false →
        remove_job jid store = Except.ok (false, store, false) ∧
          enable_job jid store = Except.ok (false, store, false) ∧
          disable_job jid store = Except.ok (false, store, false)) ∧
      (store.any (idMatches jid) = true →
        (∃ st1, remove_job jid store = Except.ok (true, st1, true) ∧
            st1.length + 1 = store.length) ∧
          (∃ st1, enable_job jid store = Except.ok (true, st1, true) ∧
            st1.length = store.length) ∧
          (∃ st1, disable_job jid store = Except.ok (true, st1, true) ∧
            st1.length = store.length)) := by
  constructor
  · intro hno
    have Hm : ∀ j ∈ store, idMatches jid j = false := by
      intro j hj
      cases hpj : idMatches jid j with
      | false => rfl
      | true =>
        have : store.any (idMatches jid) = true := List.any_eq_true.mpr ⟨j, hj, hpj⟩
        rw [this] at hno
        cases hno
    exact ⟨remove_job_no_match store jid H Hm, enable_job_no_match store jid H Hm,
      disable_job_no_match store jid H Hm⟩
  · intro hyes
    exact ⟨remove_job_hit store jid H hyes, enable_job_hit store jid H hyes,
      disable_job_hit store jid H hyes⟩

/-- Witness for the amended C8 on a store with a foreign entry and a
matching owned entry. -/
theorem C8_idempotent_lookup_amended_witness :
    (∀ j ∈ ([⟨"fc", "other-tool: job", "0 12 * * *", true⟩,
        ⟨"c1", "lambdalabs-cli: aaaa1111 - terminate_all - d1", "* * * * *", true⟩] :
          List CronJob),
        ownedB j = true → exceptOk (extract_job_id j.comment) = true) ∧
      ((([⟨"fc", "other-tool: job", "0 12 * * *", true⟩,
          ⟨"c1", "lambdalabs-cli: aaaa1111 - terminate_all - d1", "* * * * *", true⟩] :
            List CronJob).any (idMatches "aaaa1111") = false →
          remove_job "aaaa1111" [⟨"fc", "other-tool: job", "0 12 * * *", true⟩,
              ⟨"c1", "lambdalabs-cli: aaaa1111 - terminate_all - d1", "* * * * *", true⟩] =
            Except.ok (false, [⟨"fc", "other-tool: job", "0 12 * * *", true⟩,
              ⟨"c1", "lambdalabs-cli: aaaa1111 - terminate_all - d1", "* * * * *", true⟩],
              false) ∧
            enable_job "aaaa1111" [⟨"fc", "other-tool: job", "0 12 * * *", true⟩,
                ⟨"c1", "lambdalabs-cli: aaaa1111 - terminate_all - d1", "* * * * *", true⟩] =
              Except.ok (false, [⟨"fc", "other-tool: job", "0 12 * * *", true⟩,
                ⟨"c1", "lambdalabs-cli: aaaa1111 - terminate_all - d1", "* * * * *", true⟩],
                false) ∧
            disable_job "aaaa1111" [⟨"fc", "other-tool: job", "0 12 * * *", true⟩,
                ⟨"c1", "lambdalabs-cli: aaaa1111 - terminate_all - d1", "* * * * *", true⟩] =
              Except.ok (false, [⟨"fc", "other-tool: job", "0 12 * * *", true⟩,
                ⟨"c1", "lambdalabs-cli: aaaa1111 - terminate_all - d1", "* * * * *", true⟩],
                false)) ∧
        (([⟨"fc", "other-tool: job", "0 12 * * *", true⟩,
          ⟨"c1", "lambdalabs-cli: aaaa1111 - terminate_all - d1", "* * * * *", true⟩] :
            List CronJob).any (idMatches "aaaa1111") = true →
          (∃ st1, remove_job "aaaa1111" [⟨"fc", "other-tool: job", "0 12 * * *", true⟩,
                ⟨"c1", "lambdalabs-cli: aaaa1111 - terminate_all - d1", "* * * * *", true⟩] =
              Except.ok (true, st1, true) ∧ st1.length + 1 = 2) ∧
            (∃ st1, enable_job "aaaa1111" [⟨"fc", "other-tool: job", "0 12 * * *", true⟩,
                ⟨"c1", "lambdalabs-cli: aaaa1111 - terminate_all - d1", "* * * * *", true⟩] =
              Except.ok (true, st1, true) ∧ st1.length = 2) ∧
            (∃ st1, disable_job "aaaa1111" [⟨"fc", "other-tool: job", "0 12 * * *", true⟩,
                ⟨"c1", "lambdalabs-cli: aaaa1111 - terminate_all - d1", "* * * * *", true⟩] =
              Except.ok (true, st1, true) ∧ st1.length = 2))) :=
  ⟨by decide,
    C8_idempotent_lookup_amended
      [⟨"fc", "other-tool: job", "0 12 * * *", true⟩,
        ⟨"c1", "lambdalabs-cli: aaaa1111 - terminate_all - d1", "* * * * *", true⟩]
      "aaaa1111" (by decide)⟩

/-! ## Prefix-bearing entries without the separator -/

/-- Whether a comment contains the " - " separator at all. -/
def hasSepDash (s : String) : Bool := (splitFirst sepDash s.data).isSome

/-- list_jobs distributes over append when both halves succeed. -/
theorem list_jobs_append : ∀ (l1 l2 : List CronJob) (r1 r2 : List JobRec),
    list_jobs l1 = Except.ok r1 → list_jobs l2 = Except.ok r2 →
    list_jobs (l1 ++ l2) = Except.ok (r1 ++ r2)
  | [], l2, r1, r2, h1, h2 => by
    have e : (Except.ok [] : Except SchedError (List JobRec)) = Except.ok r1 := h1
    injection e with e'
    subst e'
    simpa using h2
  | j :: rest, l2, r1, r2, h1, h2 => by
    rw [List.cons_append]
    cases hov : ownedB j with
    | false =>
      simp only [list_jobs, hov, Bool.false_eq_true, if_false] at h1 ⊢
      exact list_jobs_append rest l2 r1 r2 h1 h2
    | true =>
      simp only [list_jobs, hov, if_true] at h1 ⊢
      cases he : extract_job_id j.comment with
      | error err =>
        simp only [he] at h1
        exact Except.noConfusion h1
      | ok i =>
        simp only [he] at h1 ⊢
        cases hrest : list_jobs rest with
        | error err2 =>
          simp only [hrest] at h1
          exact Except.noConfusion h1
        | ok lr =>
          simp only [hrest] at h1
          injection h1 with e1
          rw [list_jobs_append rest l2 lr r2 hrest h2]
          rw [← e1]
          simp

/-- Claim C10: a store entry whose comment starts with the ownership
prefix but contains no " - " separator is still listed, with the id
field set to the literal "unknown", and cannot be targeted by
remove/enable/disable under any id (they skip it, returning false with
no mutation and no commit on a store holding only that entry). -/
theorem C10_unknown_id_entry (e : CronJob)
    (h1 : ownedB e = true) (h2 : hasSepDash e.comment = false) :
    (∀ (pre post : List CronJob) (lpre lpost : List JobRec),
        list_jobs pre = Except.ok lpre → list_jobs post = Except.ok lpost →
        list_jobs (pre ++ e :: post) =
          Except.ok (lpre ++
            ⟨"unknown", e.schedule, e.command, e.comment, e.enabled⟩ :: lpost)) ∧
      (∀ jid : String, remove_job jid [e] = Except.ok (false, [e], false) ∧
          enable_job jid [e] = Except.ok (false, [e], false) ∧
          disable_job jid [e] = Except.ok (false, [e], false)) := by
  have hnone : splitFirst sepDash e.comment.data = none := by
    cases esf : splitFirst sepDash e.comment.data with
    | none => rfl
    | some v =>
      rw [hasSepDash, esf] at h2
      simp at h2
  have hsp : pySplit2 sepDash e.comment.data = [e.comment.data] := by
    unfold pySplit2
    rw [hnone]
  have hex : extract_job_id e.comment = Except.ok "unknown" := by
    simp only [extract_job_id, hsp]
  have hone : list_jobs [e] =
      Except.ok [⟨"unknown", e.schedule, e.command, e.comment, e.enabled⟩] := by
    simp [list_jobs, h1, hex]
  constructor
  · intro pre post lpre lpost hp hq
    have hmid : list_jobs (e :: post) =
        Except.ok (⟨"unknown", e.schedule, e.command, e.comment, e.enabled⟩ :: lpost) := by
      simpa using list_jobs_append [e] post
        [⟨"unknown", e.schedule, e.command, e.comment, e.enabled⟩] lpost hone hq
    exact list_jobs_append pre (e :: post) lpre _ hp hmid
  · intro jid
    refine ⟨?_, ?_, ?_⟩
    · simp [remove_job, h1, hsp, Except.map]
    · simp [enable_job, h1, hsp, Except.map]
    · simp [disable_job, h1, hsp, Except.map]

/-- Witness for C10 at a concrete separator-free prefix-bearing entry. -/
theorem C10_unknown_id_entry_witness :
    ownedB ⟨"c", "lambdalabs-cli-note", "* * * * *", true⟩ = true ∧
      hasSepDash ("lambdalabs-cli-note" : String) = false ∧
      list_jobs ([] ++ (⟨"c", "lambdalabs-cli-note", "* * * * *", true⟩ : CronJob) :: []) =
        Except.ok ([] ++
          (⟨"unknown", "* * * * *", "c", "lambdalabs-cli-note", true⟩ : JobRec) :: []) ∧
      remove_job "unknown" [⟨"c", "lambdalabs-cli-note", "* * * * *", true⟩] =
        Except.ok (false, [⟨"c", "lambdalabs-cli-note", "* * * * *", true⟩], false) ∧
      enable_job "unknown" [⟨"c", "lambdalabs-cli-note", "* * * * *", true⟩] =
        Except.ok (false, [⟨"c", "lambdalabs-cli-note", "* * * * *", true⟩], false) ∧
      disable_job "unknown" [⟨"c", "lambdalabs-cli-note", "* * * * *", true⟩] =
        Except.ok (false, [⟨"c", "lambdalabs-cli-note", "* * * * *", true⟩], false) :=
  ⟨by decide, by decide,
    (C10_unknown_id_entry ⟨"c", "lambdalabs-cli-note", "* * * * *", true⟩
        (by decide) (by decide)).1 [] [] [] [] rfl rfl,
    ((C10_unknown_id_entry ⟨"c", "lambdalabs-cli-note", "* * * * *", true⟩
        (by decide) (by decide)).2 "unknown").1,
    ((C10_unknown_id_entry ⟨"c", "lambdalabs-cli-note", "* * * * *", true⟩
        (by decide) (by decide)).2 "unknown").2.1,
    ((C10_unknown_id_entry ⟨"c", "lambdalabs-cli-note", "* * * * *", true⟩
        (by decide) (by decide)).2 "unknown").2.2⟩

end LambdalabsCli
